import Mathlib

/-!
Verification of the mcp-code-runner service core against its specification.

The Go source is shallowly embedded: pure helpers become Lean functions,
filesystem and Docker-daemon effects become explicit oracles (records of the
answers the environment gives during one run), and byte strings become
`List Nat` (each element one byte).  Machine integers that matter (the SHA-256
words) are `Nat` reduced `% 2^32` at every operation.
-/

/-! ## Bytes, hex encoding, UTF-8 (Go `encoding/hex`, `[]byte(s)`) -/

/-- The lowercase hex alphabet used by Go's `hex.EncodeToString`
(Go's `hextable` constant). -/
def hexAlphabet : List Char := "0123456789abcdef".data

/-- One lowercase hex digit (Go `hextable[n]` with `n < 16`). -/
def hexDigitChar (n : Nat) : Char := hexAlphabet.getD (n % 16) '0'

/-- One byte as two lowercase hex characters, high nibble first. -/
def byteToHexChars (b : Nat) : List Char := [hexDigitChar (b / 16), hexDigitChar (b % 16)]

/-- Go `hex.EncodeToString`: each byte becomes two lowercase hex characters. -/
def hexEncode (bs : List Nat) : String := ⟨(bs.map byteToHexChars).flatten⟩

/-- UTF-8 encoding of one character, as Go produces for `[]byte(s)`. -/
def utf8EncodeChar (c : Char) : List Nat :=
  let v := c.toNat
  if v < 128 then [v]
  else if v < 2048 then [192 + v / 64, 128 + v % 64]
  else if v < 65536 then [224 + v / 4096, 128 + (v / 64) % 64, 128 + v % 64]
  else [240 + v / 262144, 128 + (v / 4096) % 64, 128 + (v / 64) % 64, 128 + v % 64]

/-- The byte content of a Go string (Go strings are UTF-8 byte sequences). -/
def strBytes (s : String) : List Nat := (s.data.map utf8EncodeChar).flatten

/-! ## SHA-256 (the `crypto/sha256` routine the Manager calls)

Words are `Nat` kept below `2 ^ 32`; the bit operations are written as
structural recursions so that everything is a plain computable definition. -/

/-- Bitwise exclusive-or of the low `fuel` bits. -/
def xorBits : Nat → Nat → Nat → Nat
  | 0, _, _ => 0
  | fuel + 1, a, b =>
    (if a % 2 = b % 2 then 0 else 1) + 2 * xorBits fuel (a / 2) (b / 2)

/-- Bitwise and of the low `fuel` bits. -/
def andBits : Nat → Nat → Nat → Nat
  | 0, _, _ => 0
  | fuel + 1, a, b =>
    (if a % 2 = 1 ∧ b % 2 = 1 then 1 else 0) + 2 * andBits fuel (a / 2) (b / 2)

/-- 32-bit exclusive-or. -/
def xor32 (a b : Nat) : Nat := xorBits 32 a b

/-- 32-bit and. -/
def and32 (a b : Nat) : Nat := andBits 32 a b

/-- 32-bit complement (the argument is first reduced below `2 ^ 32`). -/
def not32 (a : Nat) : Nat := 4294967295 - a % 4294967296

/-- 32-bit right rotation by `k` places. -/
def rotr32 (x k : Nat) : Nat :=
  ((x % 4294967296) / 2 ^ (k % 32) + (x % 4294967296) * 2 ^ (32 - k % 32)) % 4294967296

/-- Logical right shift. -/
def shr32 (x k : Nat) : Nat := (x % 4294967296) / 2 ^ k

/-- Addition modulo `2 ^ 32`. -/
def add32 (a b : Nat) : Nat := (a + b) % 4294967296

/-- The eight SHA-256 initial hash words (FIPS 180-4). -/
structure Sha256Words where
  a : Nat
  b : Nat
  c : Nat
  d : Nat
  e : Nat
  f : Nat
  g : Nat
  h : Nat

/-- Initial SHA-256 state. -/
def sha256Init : Sha256Words :=
  ⟨1779033703, 3144134277, 1013904242, 2773480762,
   1359893119, 2600822924, 528734635, 1541459225⟩

/-- The 64 SHA-256 round constants. -/
def sha256K : List Nat :=
  [1116352408, 1899447441, 3049323471, 3921009573, 961987163, 1508970993,
   2453635748, 2870763221, 3624381080, 310598401, 607225278, 1426881987,
   1925078388, 2162078206, 2614888103, 3248222580, 3835390401, 4022224774,
   264347078, 604807628, 770255983, 1249150122, 1555081692, 1996064986,
   2554220882, 2821834349, 2952996808, 3210313671, 3336571891, 3584528711,
   113926993, 338241895, 666307205, 773529912, 1294757372, 1396182291,
   1695183700, 1986661051, 2177026350, 2456956037, 2730485921, 2820302411,
   3259730800, 3345764771, 3516065817, 3600352804, 4094571909, 275423344,
   430227734, 506948616, 659060556, 883997877, 958139571, 1322822218,
   1537002063, 1747873779, 1955562222, 2024104815, 2227730452, 2361852424,
   2428436474, 2756734187, 3204031479, 3329325298]

/-- Message-schedule sigma-0. -/
def smallSigma0 (x : Nat) : Nat := xor32 (xor32 (rotr32 x 7) (rotr32 x 18)) (shr32 x 3)

/-- Message-schedule sigma-1. -/
def smallSigma1 (x : Nat) : Nat := xor32 (xor32 (rotr32 x 17) (rotr32 x 19)) (shr32 x 10)

/-- Compression Sigma-0. -/
def bigSigma0 (x : Nat) : Nat := xor32 (xor32 (rotr32 x 2) (rotr32 x 13)) (rotr32 x 22)

/-- Compression Sigma-1. -/
def bigSigma1 (x : Nat) : Nat := xor32 (xor32 (rotr32 x 6) (rotr32 x 11)) (rotr32 x 25)

/-- Choice function. -/
def chFn (x y z : Nat) : Nat := xor32 (and32 x y) (and32 (not32 x) z)

/-- Majority function. -/
def majFn (x y z : Nat) : Nat := xor32 (xor32 (and32 x y) (and32 x z)) (and32 y z)

/-- Append the next message-schedule word to a partial schedule. -/
def scheduleStep (w : List Nat) : List Nat :=
  let t := w.length
  w ++ [(smallSigma1 (w.getD (t - 2) 0) + w.getD (t - 7) 0 +
         smallSigma0 (w.getD (t - 15) 0) + w.getD (t - 16) 0) % 4294967296]

/-- Extend a 16-word block to the 64-word message schedule. -/
def buildSchedule (block : List Nat) : List Nat :=
  (List.range 48).foldl (fun w _ => scheduleStep w) block

/-- One SHA-256 round. -/
def sha256Round (s : Sha256Words) (kw : Nat × Nat) : Sha256Words :=
  let t1 := (s.h + bigSigma1 s.e + chFn s.e s.f s.g + kw.1 + kw.2) % 4294967296
  let t2 := (bigSigma0 s.a + majFn s.a s.b s.c) % 4294967296
  ⟨add32 t1 t2, s.a, s.b, s.c, add32 s.d t1, s.e, s.f, s.g⟩

/-- Compress one 16-word block into the running state. -/
def sha256Compress (s : Sha256Words) (block : List Nat) : Sha256Words :=
  let w := buildSchedule block
  let r := (sha256K.zip w).foldl sha256Round s
  ⟨add32 s.a r.a, add32 s.b r.b, add32 s.c r.c, add32 s.d r.d,
   add32 s.e r.e, add32 s.f r.f, add32 s.g r.g, add32 s.h r.h⟩

/-- Big-endian 4-byte decomposition of a 32-bit word. -/
def wordBytes (w : Nat) : List Nat :=
  [(w / 16777216) % 256, (w / 65536) % 256, (w / 256) % 256, w % 256]

/-- Big-endian 8-byte encoding of the 64-bit message bit length. -/
def lenBytes8 (n : Nat) : List Nat :=
  [(n / 72057594037927936) % 256, (n / 281474976710656) % 256,
   (n / 1099511627776) % 256, (n / 4294967296) % 256,
   (n / 16777216) % 256, (n / 65536) % 256, (n / 256) % 256, n % 256]

/-- SHA-256 padding: a `0x80` byte, zeros to 56 mod 64, then the bit length. -/
def sha256Pad (msg : List Nat) : List Nat :=
  msg ++ [128] ++ List.replicate ((120 - (msg.length + 1) % 64) % 64) 0 ++
    lenBytes8 (msg.length * 8)

/-- Collect four bytes at a time into big-endian 32-bit words. -/
def bytesToWords : List Nat → List Nat
  | b0 :: b1 :: b2 :: b3 :: rest =>
    (((b0 * 256 + b1) * 256 + b2) * 256 + b3) :: bytesToWords rest
  | _ => []

/-- Split a byte list into 64-byte blocks. -/
def chunk64 : List Nat → List (List Nat)
  | [] => []
  | x :: rest => (x :: rest).take 64 :: chunk64 ((x :: rest).drop 64)
termination_by l => l.length
decreasing_by simp [List.length_drop]; omega

/-- The SHA-256 digest (32 bytes) of a byte sequence. -/
def sha256 (msg : List Nat) : List Nat :=
  let final := (chunk64 (sha256Pad msg)).foldl
    (fun s blk => sha256Compress s (bytesToWords blk)) sha256Init
  ([final.a, final.b, final.c, final.d, final.e, final.f, final.g, final.h].map
    wordBytes).flatten

/-! ## Go string and path helpers (`strings`, `path/filepath`)

Model strings are Lean `String`s; the helpers recurse over `String.data`.
For valid Unicode strings, Go's byte-level operations on `'/'` and on string
prefixes coincide with these character-level ones, because UTF-8 is
prefix-free per character and multi-byte characters never contain the
`'/'` byte. -/

/-- Split at the first `'/'`: `none` when the list has no slash. -/
def breakSlash : List Char → Option (List Char × List Char)
  | [] => none
  | c :: rest =>
    if c = '/' then some ([], rest)
    else
      match breakSlash rest with
      | none => none
      | some (a, b) => some (c :: a, b)

/-- Go `strings.SplitN(s, "/", 2)` restricted to the two-part case:
`some (before, after)` at the first slash, `none` when `s` has no slash
(the handler rejects that case). -/
def splitPathTwo (s : String) : Option (String × String) :=
  match breakSlash s.data with
  | none => none
  | some (a, b) => some (⟨a⟩, ⟨b⟩)

/-- Go `strings.HasPrefix s pre` (byte prefix; see the section comment). -/
def strStartsWith (s pre : String) : Bool := pre.data.isPrefixOf s.data

/-- Go `strings.TrimPrefix(s, pre)`. -/
def goTrimLeading (pre s : String) : String :=
  if pre.data.isPrefixOf s.data then ⟨s.data.drop pre.data.length⟩ else s

/-- Split a character list on `'/'` into components (empties preserved). -/
def splitOnSlash : List Char → List (List Char)
  | [] => [[]]
  | c :: rest =>
    let r := splitOnSlash rest
    if c = '/' then [] :: r
    else
      match r with
      | [] => [[c]]
      | g :: gs => (c :: g) :: gs

/-- The component-stack loop of Go `filepath.Clean`: `acc` is the output
stack (reversed); `".."` pops unless the stack holds only appended `".."`
components, in which case it is appended when the path is relative and
dropped at the root of an absolute path. -/
def cleanAux (rooted : Bool) : List (List Char) → List (List Char) → List (List Char)
  | acc, [] => acc
  | acc, c :: rest =>
    if c = [] ∨ c = ['.'] then cleanAux rooted acc rest
    else if c = ['.', '.'] then
      match acc with
      | [] =>
        if rooted then cleanAux rooted [] rest
        else cleanAux rooted [['.', '.']] rest
      | top :: accRest =>
        if top = ['.', '.'] then cleanAux rooted (c :: top :: accRest) rest
        else cleanAux rooted accRest rest
    else cleanAux rooted (c :: acc) rest

/-- Interleave `'/'` between path components. -/
def joinComps : List (List Char) → List Char
  | [] => []
  | [c] => c
  | c :: d :: rest => c ++ '/' :: joinComps (d :: rest)

/-- Go `filepath.Clean` on a Unix path. -/
def goClean (s : String) : String :=
  if s = "" then "."
  else
    let rooted := s.data.head? = some '/'
    let out := (cleanAux rooted [] (splitOnSlash s.data)).reverse
    let joined := joinComps out
    if rooted then ⟨'/' :: joined⟩
    else if joined = [] then "." else ⟨joined⟩

/-- Concatenate strings with `"/"` between them. -/
def joinStrings : List String → String
  | [] => ""
  | [s] => s
  | s :: t :: rest => s ++ "/" ++ joinStrings (t :: rest)

/-- Go `filepath.Join`: skip leading empty elements, join on `"/"`, clean. -/
def goJoin (elems : List String) : String :=
  match elems.dropWhile (fun e => e == "") with
  | [] => ""
  | e :: rest => goClean (joinStrings (e :: rest))

/-! ## Sandbox manager (`internal/sandbox/manager.go`, current variant) -/

/-- `Manager.hashConversationID`: lowercase hex SHA-256 of the
conversation-id bytes immediately followed by the secret bytes
(`h.Write(conversationID); h.Write(secret); hex(h.Sum(nil))`). -/
def hashConversationID (conversationID secret : String) : String :=
  hexEncode (sha256 (strBytes conversationID ++ strBytes secret))

/-- `Manager.GetFilePath(hashedDir, filename)`:
`filepath.Join(sandboxRoot, hashedDir, filename)`. -/
def getFilePath (sandboxRoot hashedDir filename : String) : String :=
  goJoin [sandboxRoot, hashedDir, filename]

/-- `Manager.GetSandboxHostPath`: `filepath.Join(sandboxHostPath, hashedDir)`. -/
def getSandboxHostPath (sandboxHostPath conversationID secret : String) : String :=
  goJoin [sandboxHostPath, hashConversationID conversationID secret]

/-- One entry of `os.ReadDir`, reduced to the two facts `ListFiles` reads:
its name and whether it is a directory. -/
structure DirEntry where
  name : String
  isDir : Bool

/-- The filesystem answers one `ListFiles` call observes for the sandbox
directory: whether `os.Stat` reports not-exists, and what `os.ReadDir`
would return. -/
structure SandboxDirFS where
  statNotExist : Bool
  readDir : Except String (List DirEntry)

/-- `Manager.ListFiles`: empty list when the directory is absent, the error
when `ReadDir` fails, otherwise the names of the non-directory entries. -/
def listFiles (fs : SandboxDirFS) : Except String (List String) :=
  if fs.statNotExist then .ok []
  else
    match fs.readDir with
    | .error e => .error ("failed to read sandbox directory: " ++ e)
    | .ok entries => .ok ((entries.filter (fun e => !e.isDir)).map (fun e => e.name))

/-! ## File-download handler (`internal/handler/server.go`, `handleFileDownload`) -/

/-- What `os.Stat` reports for the requested path. -/
inductive StatResult where
  | notExists
  | otherError
  | isDir
  | regularFile
  deriving DecidableEq, Repr

/-- The part of an HTTP request `handleFileDownload` reads. -/
structure DownloadRequest where
  method : String
  urlPath : String

/-- The observable response: an `http.Error(status, msg)` or a served file. -/
inductive HttpOutcome where
  | error (status : Nat) (msg : String)
  | served (path : String)
  deriving DecidableEq, Repr

/-- `Server.handleFileDownload`, current (64-char) variant: parse
`/files/{hashedDir}/{filename}`, length-validate the hashed directory
name, stat the composed path, then apply the path-traversal guard and
serve. -/
def handleFileDownload (sandboxRoot : String) (req : DownloadRequest)
    (fs : String → StatResult) : HttpOutcome :=
  if req.method ≠ "GET" then .error 405 "Method not allowed"
  else
    match splitPathTwo (goTrimLeading "/files/" req.urlPath) with
    | none => .error 400 "Invalid file path"
    | some (hashedDir, filename) =>
      if hashedDir.length ≠ 64 then .error 400 "Invalid directory hash"
      else
        let filePath := getFilePath sandboxRoot hashedDir filename
        match fs filePath with
        | .notExists => .error 404 "File not found"
        | .otherError => .error 500 "Internal error"
        | .isDir => .error 400 "Not a file"
        | .regularFile =>
          if strStartsWith (goClean filePath) (goClean sandboxRoot) then
            .served filePath
          else .error 403 "Invalid file path"

/-! ## Executor (`internal/runner`, `Executor.Execute`) -/

/-- The result record Go's `Execute` returns; `error` is `none` when the
`Error` field is nil. -/
structure ExecutionResult where
  success : Bool
  stdout : String
  stderr : String
  exitCode : Int
  timedOut : Bool
  error : Option String
  deriving DecidableEq, Repr

/-- Which of the three waiter channels fires first, mirroring the `select`
over `errCh`, `statusCh` and `execCtx.Done()`.  `errNonNil`/`errNil`
distinguish whether the value read from `errCh` is a non-nil error. -/
inductive WaitEvent where
  | errNonNil (msg : String)
  | errNil
  | exited (code : Int)
  | ctxDone
  deriving DecidableEq, Repr

/-- The daemon's answers during one `Execute` call: the outcome of
`ContainerCreate`, `ContainerAttach` and `ContainerStart`, the first wait
event, and the stdout/stderr buffer contents at the moment they are read. -/
structure RunTrace where
  createResult : Except String String
  attachResult : Except String Unit
  startResult : Except String Unit
  waitEvent : WaitEvent
  stdoutCaptured : String
  stderrCaptured : String

/-- Which context the deferred `ContainerRemove` derives from. -/
inductive CtxParent where
  | background
  | caller
  deriving DecidableEq, Repr

/-- The deferred cleanup call:
`context.WithTimeout(context.Background(), 5*time.Second)` plus
`ContainerRemove(..., RemoveOptions{Force: true})`. -/
structure CleanupCtx where
  containerID : String
  parent : CtxParent
  timeoutSeconds : Nat
  force : Bool
  deriving DecidableEq, Repr

/-- The `container.Config` fields `Execute` fills in. -/
structure ContainerConfig where
  image : String
  workingDir : String
  networkDisabled : Bool
  user : String
  env : List String
  deriving DecidableEq, Repr

/-- Build the container configuration, converting the environment map to
Docker's `KEY=value` list (`fmt.Sprintf("%s=%s", key, value)` per entry). -/
def mkContainerConfig (imageName : String) (networkEnabled : Bool)
    (environment : List (String × String)) : ContainerConfig :=
  { image := imageName
    workingDir := "/data"
    networkDisabled := !networkEnabled
    user := "1000:1000"
    env := environment.map (fun p => p.1 ++ "=" ++ p.2) }

/-- The timeout notice `fmt.Sprintf("Execution timed out after %v", e.timeout)`
for a whole-second timeout (Go renders such a `Duration` as e.g. `"30s"`). -/
def timeoutNotice (timeoutSeconds : Nat) : String :=
  "Execution timed out after " ++ toString timeoutSeconds ++ "s"

/-- The tail of `Execute` after the `select`: prefix the timeout notice onto
any captured stderr, and compute `success := exitCode == 0 && !timedOut`. -/
def reportResult (exitCode : Int) (timedOut : Bool) (timeoutSeconds : Nat)
    (tr : RunTrace) : ExecutionResult :=
  let stderr :=
    if timedOut then
      if tr.stderrCaptured = "" then timeoutNotice timeoutSeconds
      else timeoutNotice timeoutSeconds ++ "\n" ++ tr.stderrCaptured
    else tr.stderrCaptured
  { success := exitCode == 0 && !timedOut
    stdout := tr.stdoutCaptured
    stderr := stderr
    exitCode := exitCode
    timedOut := timedOut
    error := none }

/-- Everything one `Execute` call produces: the container configuration and
bind list it sent to the daemon, the returned result, and the deferred
cleanup call (`none` when `ContainerCreate` failed, since the `defer` is
registered only after a successful create). -/
structure ExecOutcome where
  config : ContainerConfig
  binds : List String
  result : ExecutionResult
  cleanup : Option CleanupCtx

/-- `Executor.Execute`, driven by a `RunTrace`.  Mirrors the Go control
flow: early returns on create/attach/start failure, the `select` over
wait-error / exit-status / context-done, and the deferred force-remove
under a fresh 5-second background context. -/
def execute (timeoutSeconds : Nat) (imageName sandboxDir _code : String)
    (networkEnabled : Bool) (environment : List (String × String))
    (tr : RunTrace) : ExecOutcome :=
  let config := mkContainerConfig imageName networkEnabled environment
  let binds := [sandboxDir ++ ":/data"]
  match tr.createResult with
  | .error e =>
    { config, binds
      result := { success := false, stdout := "",
                  stderr := "Failed to create container: " ++ e,
                  exitCode := 0, timedOut := false, error := some e }
      cleanup := none }
  | .ok containerID =>
    let cleanup : Option CleanupCtx :=
      some { containerID, parent := .background, timeoutSeconds := 5, force := true }
    match tr.attachResult with
    | .error e =>
      { config, binds
        result := { success := false, stdout := "",
                    stderr := "Failed to attach to container: " ++ e,
                    exitCode := 0, timedOut := false, error := some e }
        cleanup }
    | .ok _ =>
      match tr.startResult with
      | .error e =>
        { config, binds
          result := { success := false, stdout := "",
                      stderr := "Failed to start container: " ++ e,
                      exitCode := 0, timedOut := false, error := some e }
          cleanup }
      | .ok _ =>
        match tr.waitEvent with
        | .errNonNil e =>
          { config, binds
            result := { success := false, stdout := tr.stdoutCaptured,
                        stderr := "Container wait error: " ++ e ++ "\n" ++
                                  tr.stderrCaptured,
                        exitCode := 0, timedOut := false, error := some e }
            cleanup }
        | .errNil =>
          { config, binds, result := reportResult 0 false timeoutSeconds tr, cleanup }
        | .exited code =>
          { config, binds, result := reportResult code false timeoutSeconds tr, cleanup }
        | .ctxDone =>
          { config, binds, result := reportResult (-1) true timeoutSeconds tr, cleanup }

/-! ## Tool dispatcher (`handleRunCode` and `handleUploadFile`, current variant) -/

/-- Go map assignment `m[k] = v` on an association-list model of
`map[string]string`: replace the value when the key is present, append
otherwise. -/
def envSet (m : List (String × String)) (k v : String) : List (String × String) :=
  if m.any (fun p => p.1 = k) then m.map (fun p => if p.1 = k then (k, v) else p)
  else m ++ [(k, v)]

/-- The `run_code` arguments after JSON decoding (`RunCodeArguments`):
`network` and `environment` are optional. -/
structure RunCodeArgs where
  conversationID : String
  language : String
  code : String
  network : Option Bool
  environment : Option (List (String × String))

/-- Where `handleRunCode` stops: a JSON-RPC invalid-params error, a
tool-level failure payload, or the call into `Executor.Execute` with the
arguments it was handed. -/
inductive RunCodeStep where
  | invalidParams (msg : String)
  | toolFailure (stderr : String)
  | executed (image hostPath code : String) (network : Bool)
      (env : List (String × String))

/-- `MCPHandler.handleRunCode` up to the `Execute` call: validation, runner
lookup, sandbox creation, host-path computation, defaulting of `network`
and `environment`, and the `FILE_BASE_URL` injection
(`env["FILE_BASE_URL"] = fmt.Sprintf("%s/files/%s", baseURL, hashedDir)`).
`registry` is the runner catalog (`GetRunner`); `mkdirResult` is the error,
if any, of `os.MkdirAll` inside `EnsureSandboxDir`; `baseURL` stands for
`h.signer.GetBaseURL()`.  Modelled from the spec: `Signer.GetBaseURL` is
absent from the sources (only its call sites are) and is taken, per the
spec's `public-base-url`, to return the configured public base URL. -/
def runCodePrep (registry : String → Option String)
    (secret baseURL sandboxHostRoot : String) (mkdirResult : Option String)
    (args : RunCodeArgs) : RunCodeStep :=
  if args.conversationID = "" then .invalidParams "conversationId is required"
  else if args.language = "" then .invalidParams "language is required"
  else if args.code = "" then .invalidParams "code is required"
  else
    match registry args.language with
    | none => .toolFailure ("Unsupported language: " ++ args.language)
    | some image =>
      match mkdirResult with
      | some e => .toolFailure ("Failed to create sandbox: " ++ e)
      | none =>
        let hashedDir := hashConversationID args.conversationID secret
        let hostPath := goJoin [sandboxHostRoot, hashedDir]
        let networkEnabled := args.network.getD false
        let env0 := args.environment.getD []
        let fileBaseURL := baseURL ++ "/files/" ++ hashedDir
        let env1 := envSet env0 "FILE_BASE_URL" fileBaseURL
        .executed image hostPath args.code networkEnabled env1

/-- The download URL the current tool layer builds for a file
(`fmt.Sprintf("%s/files/%s/%s", baseURL, hashedDir, filename)` in
`handleUploadFile` and in the file-descriptor loop of `handleRunCode`):
the filename is inserted verbatim. -/
def makeSimpleFileURL (baseURL hashedDir filename : String) : String :=
  baseURL ++ "/files/" ++ hashedDir ++ "/" ++ filename

/-- The file descriptor (`{name, url}`) the tool layer returns. -/
structure FileDescriptor where
  name : String
  url : String
  deriving DecidableEq, Repr

/-- The descriptor `handleUploadFile` builds for an uploaded file. -/
def uploadFileDescriptor (baseURL hashedDir filename : String) : FileDescriptor :=
  { name := filename, url := makeSimpleFileURL baseURL hashedDir filename }

/-- The uppercase hex alphabet of Go's percent-encoding. -/
def upperHexAlphabet : List Char := "0123456789ABCDEF".data

/-- One uppercase hex digit. -/
def upperHexDigit (n : Nat) : Char := upperHexAlphabet.getD (n % 16) '0'

/-- Modelled from the spec: the `url-escape` of the spec's `file-url`, i.e.
Go's `url.PathEscape` byte rule (its implementation lives in the standard
library, not in this repository): a byte is kept when it is alphanumeric,
one of `-_.~`, or one of `$&+:=@`; every other byte, including `/;,?` and
the space, becomes `%XX`. -/
def shouldEscapeInPathSegment (b : Nat) : Bool :=
  if (97 ≤ b ∧ b ≤ 122) ∨ (65 ≤ b ∧ b ≤ 90) ∨ (48 ≤ b ∧ b ≤ 57) then false
  else if b = 45 ∨ b = 95 ∨ b = 46 ∨ b = 126 then false
  else if b = 36 ∨ b = 38 ∨ b = 43 ∨ b = 58 ∨ b = 61 ∨ b = 64 then false
  else true

/-- Modelled from the spec: Go `url.PathEscape` over the UTF-8 bytes. -/
def pathEscape (s : String) : String :=
  ⟨((strBytes s).map (fun b =>
      if shouldEscapeInPathSegment b then
        ['%', upperHexDigit (b / 16), upperHexDigit (b % 16)]
      else [Char.ofNat b])).flatten⟩

/-- Modelled from the spec: the URL the claim asserts the tool layer
returns — `public-base-url ⊕ "/files/" ⊕ hashed-id ⊕ "/" ⊕
url-escape(name)` with no query parameters. -/
def specFileURL (baseURL hashedDir filename : String) : String :=
  baseURL ++ "/files/" ++ hashedDir ++ "/" ++ pathEscape filename

/-! ## Helper lemmas -/

theorem strData_append (a b : String) : (a ++ b).data = a.data ++ b.data := by
  cases a; cases b; rfl

theorem hexDigitChar_mem (n : Nat) : hexDigitChar n ∈ hexAlphabet := by
  unfold hexDigitChar
  have hlt : n % 16 < 16 := Nat.mod_lt _ (by norm_num)
  interval_cases h : n % 16 <;> decide

theorem hexAlphabet_range :
    ∀ c ∈ hexAlphabet, ('0' ≤ c ∧ c ≤ '9') ∨ ('a' ≤ c ∧ c ≤ 'f') := by
  have h : hexAlphabet.all
      (fun c => decide (('0' ≤ c ∧ c ≤ '9') ∨ ('a' ≤ c ∧ c ≤ 'f'))) = true := by
    decide
  intro c hc
  simpa using List.all_eq_true.mp h c hc

theorem hexEncode_length (bs : List Nat) : (hexEncode bs).length = 2 * bs.length := by
  show ((bs.map byteToHexChars).flatten).length = 2 * bs.length
  induction bs with
  | nil => rfl
  | cons b rest ih => simp [byteToHexChars] at ih ⊢; omega

theorem hexEncode_mem (bs : List Nat) :
    ∀ c ∈ (hexEncode bs).data, c ∈ hexAlphabet := by
  intro c hc
  have hc' : c ∈ (bs.map byteToHexChars).flatten := hc
  simp only [List.mem_flatten, List.mem_map] at hc'
  obtain ⟨l, ⟨b, _, rfl⟩, hcl⟩ := hc'
  simp only [byteToHexChars, List.mem_cons, List.not_mem_nil, or_false] at hcl
  rcases hcl with rfl | rfl
  · exact hexDigitChar_mem _
  · exact hexDigitChar_mem _

theorem sha256_length (msg : List Nat) : (sha256 msg).length = 32 := by
  simp [sha256, wordBytes]



theorem lookup_cons (k : String) (p : String × String) (es : List (String × String)) :
    (p :: es).lookup k = if k = p.1 then some p.2 else es.lookup k := by
  rcases p with ⟨a, b⟩
  by_cases h : k = a
  · subst h; simp [List.lookup]
  · have hb : (k == a) = false := by simpa using h
    simp [List.lookup, hb, h]

theorem lookup_map_replace (m : List (String × String)) (k v : String) :
    (m.map (fun p => if p.1 = k then (k, v) else p)).lookup k =
      if m.any (fun p => p.1 = k) then some v else m.lookup k := by
  induction m with
  | nil => rfl
  | cons p rest ih =>
    by_cases hp : p.1 = k
    · simp [lookup_cons, hp, ih]
    · have hk : ¬ k = p.1 := fun hkk => hp hkk.symm
      rw [List.map_cons, List.any_cons, if_neg hp, decide_eq_false hp, Bool.false_or,
        lookup_cons, if_neg hk, ih, lookup_cons, if_neg hk]

theorem lookup_map_replace_ne (m : List (String × String)) (k v k' : String)
    (h : k' ≠ k) :
    (m.map (fun p => if p.1 = k then (k, v) else p)).lookup k' = m.lookup k' := by
  induction m with
  | nil => rfl
  | cons p rest ih =>
    by_cases hp : p.1 = k
    · have h2 : ¬ k' = p.1 := by rw [hp]; exact h
      simp [lookup_cons, hp, h, h2, ih]
    · by_cases hkp : k' = p.1 <;> simp [lookup_cons, hp, hkp, ih]

theorem lookup_append_single (m : List (String × String)) (k v k' : String)
    (h : k' ≠ k) : (m ++ [(k, v)]).lookup k' = m.lookup k' := by
  induction m with
  | nil => rw [List.nil_append, lookup_cons, if_neg h]
  | cons p rest ih =>
    by_cases hkp : k' = p.1 <;>
      simp [List.cons_append, lookup_cons, hkp, ih]

theorem lookup_none_of_any_false (m : List (String × String)) (k : String)
    (h : m.any (fun p => p.1 = k) = false) : m.lookup k = none := by
  induction m with
  | nil => rfl
  | cons p rest ih =>
    simp only [List.any_cons, Bool.or_eq_false_iff, decide_eq_false_iff_not] at h
    have hk : ¬ k = p.1 := fun hkk => h.1 hkk.symm
    rw [lookup_cons, if_neg hk]
    exact ih (by simpa using h.2)

theorem lookup_append_of_none (m l : List (String × String)) (k : String)
    (h : m.lookup k = none) : (m ++ l).lookup k = l.lookup k := by
  induction m with
  | nil => rfl
  | cons p rest ih =>
    rw [lookup_cons] at h
    by_cases hkp : k = p.1
    · simp [hkp] at h
    · rw [List.cons_append, lookup_cons, if_neg hkp]
      exact ih (by simpa [hkp] using h)

theorem lookup_envSet_self (m : List (String × String)) (k v : String) :
    (envSet m k v).lookup k = some v := by
  unfold envSet
  by_cases hany : m.any (fun p => p.1 = k) = true
  · rw [if_pos hany, lookup_map_replace, if_pos hany]
  · have hany' : m.any (fun p => p.1 = k) = false := by
      cases hv : m.any (fun p => p.1 = k) with
      | true => exact absurd hv hany
      | false => rfl
    rw [if_neg hany,
      lookup_append_of_none _ _ _ (lookup_none_of_any_false m k hany'), lookup_cons]
    simp

theorem lookup_envSet_ne (m : List (String × String)) (k v k' : String)
    (h : k' ≠ k) : (envSet m k v).lookup k' = m.lookup k' := by
  unfold envSet
  by_cases hany : m.any (fun p => p.1 = k) = true
  · rw [if_pos hany, lookup_map_replace_ne _ _ _ _ h]
  · rw [if_neg hany, lookup_append_single _ _ _ _ h]

/-! ## Claim theorems -/

/-- C1: for every execution outcome produced by `Executor.Execute`, the
success flag is true iff the reported exit-code equals 0, the timed-out
flag is false, and no internal error (create, attach, start, or wait
failure) occurred during the run. -/
theorem executor_success_iff_clean_exit (timeoutSeconds : Nat)
    (imageName sandboxDir code : String) (networkEnabled : Bool)
    (environment : List (String × String)) (tr : RunTrace) :
    (execute timeoutSeconds imageName sandboxDir code networkEnabled environment
        tr).result.success = true ↔
      ((execute timeoutSeconds imageName sandboxDir code networkEnabled environment
          tr).result.exitCode = 0 ∧
       (execute timeoutSeconds imageName sandboxDir code networkEnabled environment
          tr).result.timedOut = false ∧
       (execute timeoutSeconds imageName sandboxDir code networkEnabled environment
          tr).result.error = none) := by
  obtain ⟨cr, ar, sr, we, out, ecap⟩ := tr
  cases cr with
  | error e => simp [execute]
  | ok cid =>
    cases ar with
    | error e => simp [execute]
    | ok u =>
      cases sr with
      | error e => simp [execute]
      | ok u' =>
        cases we with
        | errNonNil e => simp [execute]
        | errNil => simp [execute, reportResult]
        | exited c => simp [execute, reportResult]
        | ctxDone => simp [execute, reportResult]

/-- C4: when the bounded context fires before the daemon reports an exit
(the `select` wakes on `execCtx.Done()`), the outcome has success=false,
timed-out=true, exit-code=-1, and stderr is the timeout notice followed by
any stderr text already captured (preserved, not discarded). -/
theorem executor_timeout_outcome (timeoutSeconds : Nat)
    (imageName sandboxDir code : String) (networkEnabled : Bool)
    (environment : List (String × String)) (cid out ecap : String) :
    (execute timeoutSeconds imageName sandboxDir code networkEnabled environment
        ⟨Except.ok cid, Except.ok (), Except.ok (), WaitEvent.ctxDone,
          out, ecap⟩).result =
      { success := false
        stdout := out
        stderr :=
          if ecap = "" then timeoutNotice timeoutSeconds
          else timeoutNotice timeoutSeconds ++ "\n" ++ ecap
        exitCode := -1
        timedOut := true
        error := none } := by
  simp [execute, reportResult]

/-- C8: whenever `ContainerCreate` succeeded, the deferred force-remove is
attempted on every exit path — attach failure, start failure, wait error,
normal exit, timeout or caller cancellation alike — and it runs under a
fresh 5-second context derived from `context.Background()`, not from the
caller's context; when creation failed no cleanup is registered. -/
theorem executor_cleanup_fresh_background_context (timeoutSeconds : Nat)
    (imageName sandboxDir code : String) (networkEnabled : Bool)
    (environment : List (String × String)) (cid : String)
    (ar sr : Except String Unit) (we : WaitEvent) (out ecap : String) :
    (execute timeoutSeconds imageName sandboxDir code networkEnabled environment
        ⟨Except.ok cid, ar, sr, we, out, ecap⟩).cleanup =
      some ⟨cid, CtxParent.background, 5, true⟩ ∧
    ∀ emsg,
      (execute timeoutSeconds imageName sandboxDir code networkEnabled environment
          ⟨Except.error emsg, ar, sr, we, out, ecap⟩).cleanup = none := by
  constructor
  · cases ar with
    | error e => rfl
    | ok u =>
      cases sr with
      | error e => rfl
      | ok u' => cases we <;> rfl
  · intro emsg
    rfl

/-- C5: the hashed-id is the lowercase hex SHA-256 digest of the
conversation-id bytes immediately followed by the secret bytes with no
separator; it is exactly 64 characters, each in `[0-9a-f]`, and two
computations over the same pair yield identical strings. -/
theorem hashed_id_is_sha256_hex (conversationID secret : String) :
    hashConversationID conversationID secret =
      hexEncode (sha256 (strBytes conversationID ++ strBytes secret)) ∧
    (hashConversationID conversationID secret).length = 64 ∧
    (∀ c ∈ (hashConversationID conversationID secret).data,
      ('0' ≤ c ∧ c ≤ '9') ∨ ('a' ≤ c ∧ c ≤ 'f')) ∧
    ∀ c2 s2, c2 = conversationID → s2 = secret →
      hashConversationID c2 s2 = hashConversationID conversationID secret := by
  refine ⟨rfl, ?_, ?_, ?_⟩
  · show (hexEncode (sha256 (strBytes conversationID ++ strBytes secret))).length = 64
    rw [hexEncode_length, sha256_length]
  · intro c hc
    exact hexAlphabet_range c (hexEncode_mem _ c hc)
  · intro c2 s2 hc hs
    rw [hc, hs]

/-- Witness for C5 at the concrete pair `("a", "b")`. -/
theorem hashed_id_is_sha256_hex_witness :
    (hashConversationID "a" "b").length = 64 ∧
    hashConversationID "a" "b" = hashConversationID "a" "b" := by
  refine ⟨(hashed_id_is_sha256_hex "a" "b").2.1, ?_⟩
  exact (hashed_id_is_sha256_hex "a" "b").2.2.2 "a" "b" rfl rfl

/-- C9: `ListFiles` returns an empty sequence (not an error) when the
sandbox directory does not exist; when it exists, the returned names are
exactly those of the non-directory entries — every directory entry is
skipped and every regular-file entry is kept. -/
theorem list_files_skips_directories :
    (∀ rd, listFiles ⟨true, rd⟩ = Except.ok []) ∧
    ∀ entries name, ∃ files,
      listFiles ⟨false, Except.ok entries⟩ = Except.ok files ∧
      (name ∈ files ↔ ∃ e ∈ entries, e.isDir = false ∧ e.name = name) := by
  constructor
  · intro rd
    rfl
  · intro entries name
    refine ⟨(entries.filter (fun e => !e.isDir)).map (fun e => e.name), ?_, ?_⟩
    · rfl
    simp only [List.mem_map, List.mem_filter, Bool.not_eq_true']
    constructor
    · rintro ⟨e, ⟨he, hd⟩, rfl⟩
      exact ⟨e, he, hd, rfl⟩
    · rintro ⟨e, he, hd, rfl⟩
      exact ⟨e, ⟨he, hd⟩, rfl⟩

/-- Witness for C9: a directory entry is skipped and a file is kept. -/
theorem list_files_skips_directories_witness :
    listFiles ⟨true, Except.ok []⟩ = Except.ok [] ∧
    ∃ files,
      listFiles ⟨false, Except.ok [⟨"a.txt", false⟩, ⟨"sub", true⟩]⟩ =
        Except.ok files ∧ "a.txt" ∈ files ∧ "sub" ∉ files := by
  refine ⟨list_files_skips_directories.1 (Except.ok []), ?_⟩
  obtain ⟨files, hf, hmem⟩ :=
    list_files_skips_directories.2 [⟨"a.txt", false⟩, ⟨"sub", true⟩] "a.txt"
  obtain ⟨files2, hf2, hmem2⟩ :=
    list_files_skips_directories.2 [⟨"a.txt", false⟩, ⟨"sub", true⟩] "sub"
  refine ⟨files, hf, hmem.mpr ⟨⟨"a.txt", false⟩, by simp⟩, ?_⟩
  have hsame : files2 = files := Except.ok.inj (hf2.symm.trans hf)
  intro hcon
  have := hmem2.mp (by rw [hsame]; exact hcon)
  simp at this

/-- C6: every `run_code` invocation that reaches execution (runner
resolved, sandbox ensured) hands the Executor an environment map extended
with the synthesized entry
`FILE_BASE_URL = public-base-url ++ "/files/" ++ hashed-id`, whether or not
the caller supplied an environment map. -/
theorem run_code_injects_file_base_url (registry : String → Option String)
    (secret baseURL sandboxHostRoot : String) (args : RunCodeArgs)
    (image : String)
    (h1 : args.conversationID ≠ "") (h2 : args.language ≠ "")
    (h3 : args.code ≠ "") (h4 : registry args.language = some image) :
    ∃ env,
      runCodePrep registry secret baseURL sandboxHostRoot none args =
        RunCodeStep.executed image
          (goJoin [sandboxHostRoot, hashConversationID args.conversationID secret])
          args.code (args.network.getD false) env ∧
      env.lookup "FILE_BASE_URL" =
        some (baseURL ++ "/files/" ++
          hashConversationID args.conversationID secret) := by
  refine ⟨envSet (args.environment.getD []) "FILE_BASE_URL"
      (baseURL ++ "/files/" ++ hashConversationID args.conversationID secret),
    ?_, lookup_envSet_self _ _ _⟩
  unfold runCodePrep
  rw [if_neg h1, if_neg h2, if_neg h3, h4]

/-- Witness for C6: a concrete invocation with no caller environment. -/
theorem run_code_injects_file_base_url_witness :
    ∃ env,
      runCodePrep (fun l => if l = "python" then some "runner-img" else none)
          "sec" "http://x" "/host" none
          ⟨"conv1", "python", "print(1)", none, none⟩ =
        RunCodeStep.executed "runner-img"
          (goJoin ["/host", hashConversationID "conv1" "sec"]) "print(1)" false env ∧
      env.lookup "FILE_BASE_URL" =
        some ("http://x" ++ "/files/" ++ hashConversationID "conv1" "sec") :=
  run_code_injects_file_base_url
    (fun l => if l = "python" then some "runner-img" else none)
    "sec" "http://x" "/host" ⟨"conv1", "python", "print(1)", none, none⟩
    "runner-img" (by decide) (by decide) (by decide) (by decide)

/-- C10 (implicit): the container environment is the caller-supplied map
with `FILE_BASE_URL` bound to the synthesized URL — a caller-supplied
`FILE_BASE_URL` entry is overwritten — while every other key keeps its
caller-supplied value, and the container configuration receives exactly
this map as its `KEY=value` list. -/
theorem run_code_env_pass_through (registry : String → Option String)
    (secret baseURL sandboxHostRoot : String) (args : RunCodeArgs)
    (image : String)
    (h1 : args.conversationID ≠ "") (h2 : args.language ≠ "")
    (h3 : args.code ≠ "") (h4 : registry args.language = some image) :
    ∃ hostPath env,
      runCodePrep registry secret baseURL sandboxHostRoot none args =
        RunCodeStep.executed image hostPath args.code
          (args.network.getD false) env ∧
      env.lookup "FILE_BASE_URL" =
        some (baseURL ++ "/files/" ++
          hashConversationID args.conversationID secret) ∧
      (∀ k, k ≠ "FILE_BASE_URL" →
        env.lookup k = (args.environment.getD []).lookup k) ∧
      ∀ timeoutSeconds imageName sandboxDir networkEnabled tr,
        (execute timeoutSeconds imageName sandboxDir args.code networkEnabled env
            tr).config.env = env.map (fun p => p.1 ++ "=" ++ p.2) := by
  refine ⟨goJoin [sandboxHostRoot, hashConversationID args.conversationID secret],
    envSet (args.environment.getD []) "FILE_BASE_URL"
      (baseURL ++ "/files/" ++ hashConversationID args.conversationID secret),
    ?_, lookup_envSet_self _ _ _, ?_, ?_⟩
  · unfold runCodePrep
    rw [if_neg h1, if_neg h2, if_neg h3, h4]
  · intro k hk
    exact lookup_envSet_ne _ _ _ _ hk
  · intro timeoutSeconds imageName sandboxDir networkEnabled tr
    obtain ⟨cr, ar, sr, we, out, ecap⟩ := tr
    cases cr with
    | error e => rfl
    | ok cid =>
      cases ar with
      | error e => rfl
      | ok u =>
        cases sr with
        | error e => rfl
        | ok u' => cases we <;> rfl

/-- Witness for C10: a caller-supplied `FILE_BASE_URL` is overwritten and
an unrelated key passes through unchanged. -/
theorem run_code_env_pass_through_witness :
    ∃ hostPath env,
      runCodePrep (fun l => if l = "python" then some "runner-img" else none)
          "sec" "http://x" "/host" none
          ⟨"conv1", "python", "print(1)", none,
            some [("FILE_BASE_URL", "evil"), ("API_KEY", "k1")]⟩ =
        RunCodeStep.executed "runner-img" hostPath "print(1)" false env ∧
      env.lookup "FILE_BASE_URL" =
        some ("http://x" ++ "/files/" ++ hashConversationID "conv1" "sec") ∧
      env.lookup "API_KEY" = some "k1" := by
  obtain ⟨hostPath, env, hrun, hurl, hpass, _⟩ :=
    run_code_env_pass_through
      (fun l => if l = "python" then some "runner-img" else none)
      "sec" "http://x" "/host"
      ⟨"conv1", "python", "print(1)", none,
        some [("FILE_BASE_URL", "evil"), ("API_KEY", "k1")]⟩
      "runner-img" (by decide) (by decide) (by decide) (by decide)
  refine ⟨hostPath, env, hrun, hurl, ?_⟩
  rw [hpass "API_KEY" (by decide)]
  rfl

/-- C2 (amended): when the cleaned realized path fails the
`strings.HasPrefix` test against the cleaned sandbox root, no file is ever
served; the status is 403 specifically when the earlier guards pass (GET,
two path parts, 64-character hashed-id, stat reports an existing
non-directory) — when an earlier guard fires, its own status (400/404/500)
is returned instead, still without serving bytes. -/
theorem download_traversal_never_served (sandboxRoot : String)
    (req : DownloadRequest) (fs : String → StatResult)
    (hashedDir filename : String)
    (hm : req.method = "GET")
    (hparse : splitPathTwo (goTrimLeading "/files/" req.urlPath) =
      some (hashedDir, filename))
    (hpre : strStartsWith (goClean (getFilePath sandboxRoot hashedDir filename))
      (goClean sandboxRoot) = false) :
    (∀ p, handleFileDownload sandboxRoot req fs ≠ HttpOutcome.served p) ∧
    (hashedDir.length = 64 →
      fs (getFilePath sandboxRoot hashedDir filename) = StatResult.regularFile →
      handleFileDownload sandboxRoot req fs =
        HttpOutcome.error 403 "Invalid file path") := by
  unfold handleFileDownload
  rw [if_neg (fun hcon => hcon hm), hparse]
  dsimp only
  by_cases hlen : hashedDir.length ≠ 64
  · rw [if_pos hlen]
    exact ⟨fun p hcon => HttpOutcome.noConfusion hcon,
      fun h64 _ => absurd h64 hlen⟩
  · rw [if_neg hlen]
    cases hfs : fs (getFilePath sandboxRoot hashedDir filename) with
    | notExists =>
      exact ⟨fun p hcon => HttpOutcome.noConfusion hcon,
        fun _ hreg => by cases hreg⟩
    | otherError =>
      exact ⟨fun p hcon => HttpOutcome.noConfusion hcon,
        fun _ hreg => by cases hreg⟩
    | isDir =>
      exact ⟨fun p hcon => HttpOutcome.noConfusion hcon,
        fun _ hreg => by cases hreg⟩
    | regularFile =>
      rw [hpre]
      exact ⟨fun p hcon => by simp at hcon, fun _ _ => by simp⟩

/-- Counterexample for C2 as stated: for the traversal request
`GET /files/aaa…a(64)/../../x` against root `/sb`, the cleaned realized
path `/x` does not begin with `/sb`, yet when the file is absent the
response is 404, not 403 (the stat guard fires before the traversal
guard). -/
theorem download_traversal_status_counterexample :
    strStartsWith
      (goClean (getFilePath "/sb" ⟨List.replicate 64 'a'⟩ "../../x"))
      (goClean "/sb") = false ∧
    handleFileDownload "/sb"
      ⟨"GET", "/files/" ++ (⟨List.replicate 64 'a'⟩ : String) ++ "/../../x"⟩
      (fun _ => StatResult.notExists) = HttpOutcome.error 404 "File not found" ∧
    HttpOutcome.error 404 "File not found" ≠
      HttpOutcome.error 403 "Invalid file path" := by
  refine ⟨by decide, by decide, by decide⟩

/-- Witness for C2 (amended): the same traversal request is answered 403
when the stat guard passes. -/
theorem download_traversal_never_served_witness :
    handleFileDownload "/sb"
      ⟨"GET", "/files/" ++ (⟨List.replicate 64 'a'⟩ : String) ++ "/../../x"⟩
      (fun _ => StatResult.regularFile) =
      HttpOutcome.error 403 "Invalid file path" :=
  (download_traversal_never_served "/sb"
    ⟨"GET", "/files/" ++ (⟨List.replicate 64 'a'⟩ : String) ++ "/../../x"⟩
    (fun _ => StatResult.regularFile) ⟨List.replicate 64 'a'⟩ "../../x"
    rfl (by decide) (by decide)).2 (by decide) rfl

/-- C3 (code defect): the download handler validates only the length of
the hashed-id, not that its characters are hex — contradicting its own
comment ("Validate hashedDir is a valid hex string").  The 64-character
all-`'z'` id is not hex, yet the request proceeds past validation to the
filesystem: the 404 here can only come from the `os.Stat` branch. -/
theorem download_accepts_non_hex_hashed_id :
    'z' ∉ hexAlphabet ∧
    (⟨List.replicate 64 'z'⟩ : String).length = 64 ∧
    handleFileDownload "/sandbox"
      ⟨"GET", "/files/" ++ (⟨List.replicate 64 'z'⟩ : String) ++ "/x"⟩
      (fun _ => StatResult.notExists) = HttpOutcome.error 404 "File not found" := by
  refine ⟨by decide, by decide, by decide⟩

/-- Counterexample for C7 as stated: the tool layer inserts the filename
verbatim, so for `"a b.txt"` the produced URL differs from the claimed
`public-base-url ⊕ "/files/" ⊕ hashed-id ⊕ "/" ⊕ url-escape(name)`. -/
theorem file_url_not_escaped_counterexample :
    (uploadFileDescriptor "http://h" "d" "a b.txt").url =
      "http://h/files/d/a b.txt" ∧
    specFileURL "http://h" "d" "a b.txt" = "http://h/files/d/a%20b.txt" ∧
    (uploadFileDescriptor "http://h" "d" "a b.txt").url ≠
      specFileURL "http://h" "d" "a b.txt" := by
  refine ⟨by decide, by decide, by decide⟩

/-- C7 (amended): the descriptor URL is
`public-base-url ⊕ "/files/" ⊕ hashed-id ⊕ "/" ⊕ name` with the filename
inserted verbatim (not URL-escaped), and it carries no query separator as
long as none of its components contains one. -/
theorem file_url_shape (baseURL hashedDir filename : String)
    (hb : '?' ∉ baseURL.data) (hh : '?' ∉ hashedDir.data)
    (hf : '?' ∉ filename.data) :
    (uploadFileDescriptor baseURL hashedDir filename).url =
      baseURL ++ "/files/" ++ hashedDir ++ "/" ++ filename ∧
    '?' ∉ (uploadFileDescriptor baseURL hashedDir filename).url.data := by
  refine ⟨rfl, ?_⟩
  show '?' ∉ (baseURL ++ "/files/" ++ hashedDir ++ "/" ++ filename).data
  simp only [strData_append, List.mem_append]
  intro hcon
  rcases hcon with ((((h1 | h2) | h3) | h4) | h5)
  · exact hb h1
  · exact absurd h2 (by decide)
  · exact hh h3
  · exact absurd h4 (by decide)
  · exact hf h5

/-- Witness for C7 (amended) at concrete components. -/
theorem file_url_shape_witness :
    (uploadFileDescriptor "http://h" "d" "a.txt").url =
      "http://h" ++ "/files/" ++ "d" ++ "/" ++ "a.txt" ∧
    '?' ∉ (uploadFileDescriptor "http://h" "d" "a.txt").url.data :=
  file_url_shape "http://h" "d" "a.txt" (by decide) (by decide) (by decide)
